import Mathlib

/-!
Shallow embedding of `ddsp/training/preprocessing.py`.

The file under verification is a small preprocessing chain over a dictionary
of named tensors.  Tensors are modelled concretely: a shape (list of
dimension sizes), a dtype tag, and the row-major flattened data over `ℚ`.
Python dictionaries are modelled as insertion-ordered association lists with
Python's update semantics (updating an existing key keeps its position,
a new key is appended at the end).  A Python `KeyError` is modelled by
`Option`.

The external collaborators from `ddsp.core` (`tf_float32`, `resample`,
`midi_to_hz`) are not part of the reviewed source; they are modelled from
the specification's words, see their doc comments.
-/

set_option autoImplicit false

namespace DDSP

/-- Tensor element dtypes that occur around this preprocessing code. -/
inductive DType where
  | float32
  | float64
  | int32
deriving DecidableEq, Repr

/-- A tensor: shape, dtype tag, and the row-major flattened data over `ℚ`. -/
structure Tensor where
  shape : List Nat
  dtype : DType
  data : List ℚ
deriving DecidableEq, Repr

/-- Product of a list of dimension sizes. -/
def prodL (l : List Nat) : Nat := l.foldr (· * ·) 1

/-- Read a flattened-data element, defaulting to `0` out of range. -/
def getQ (xs : List ℚ) (i : Nat) : ℚ := xs.getD i 0

/-- Modelled from the spec: `ddsp.core.tf_float32` (missing from the reviewed
source) casts a tensor to dtype float32; shape and (exactly representable)
values are unchanged. -/
def tf_float32 (x : Tensor) : Tensor :=
  { x with dtype := DType.float32 }

/-- `add_channel_dim` from the source: `x[:, :, tf.newaxis]` when the tensor
has rank 2, otherwise the tensor unchanged.  In the row-major flattening,
reshaping `(a, b)` to `(a, b, 1)` leaves the data untouched. -/
def add_channel_dim (x : Tensor) : Tensor :=
  if x.shape.length = 2 then { x with shape := x.shape ++ [1] } else x

/-- The axis along which time runs: axis 1 for tensors of rank at least 2
(`(batch, time, ...)` layout), axis 0 for rank-1 tensors. -/
def timeAxis (shape : List Nat) : Nat := if 2 ≤ shape.length then 1 else 0

/-- Linear interpolation of the length-`T` series `s` at output step `i` of
`n` equally spaced steps. -/
def interpAt (s : Nat → ℚ) (T n i : Nat) : ℚ :=
  if T ≤ 1 ∨ n ≤ 1 then s 0
  else
    let p : ℚ := ((i : ℚ) * ((T : ℚ) - 1)) / ((n : ℚ) - 1)
    let lo : Nat := (⌊p⌋).toNat
    let f : ℚ := p - (lo : ℚ)
    (1 - f) * s lo + f * s (min (lo + 1) (T - 1))

/-- Interpolated data of `resample`: every time series along the time axis is
linearly interpolated to `n` steps. -/
def resampleData (shape : List Nat) (n : Nat) (data : List ℚ) : List ℚ :=
  let ax := timeAxis shape
  let T := shape.getD ax 1
  let outer := prodL (shape.take ax)
  let inner := prodL (shape.drop (ax + 1))
  (List.range outer).flatMap fun b =>
    (List.range n).flatMap fun i =>
      (List.range inner).map fun c =>
        interpAt (fun t => getQ data (b * T * inner + t * inner + c)) T n i

/-- Modelled from the spec: `ddsp.core.resample` (missing from the reviewed
source) interpolates a time series to a fixed number `n` of steps; the time
dimension of the shape becomes `n` and every other dimension, the rank and
the dtype are unchanged. -/
def resample (x : Tensor) (n : Nat) : Tensor :=
  { shape := x.shape.set (timeAxis x.shape) n
    dtype := x.dtype
    data := resampleData x.shape n x.data }

/-- Elementwise multiplication of a tensor by a scalar (Python `x * 127.0`). -/
def scalarMul (c : ℚ) (x : Tensor) : Tensor :=
  { x with data := x.data.map (fun q => q * c) }

/-- Modelled from the spec: `ddsp.core.midi_to_hz` (missing from the reviewed
source) is the linear-to-exponential frequency conversion, applied
elementwise.  The scalar conversion itself is irrational (an exponential), so
it is kept abstract as the parameter `hz`. -/
def midi_to_hz (hz : ℚ → ℚ) (x : Tensor) : Tensor :=
  { x with data := x.data.map hz }

/-- A Python dict of features: insertion-ordered association list. -/
abbrev FDict : Type := List (String × Tensor)

/-- The keys of a feature dict, in insertion order. -/
def keys (d : FDict) : List String := d.map (·.1)

/-- Python `d[k]` read; `none` models a `KeyError`.  (A Python dict has no
duplicate keys, so looking up the first occurrence is exact.) -/
def dictGet : FDict → String → Option Tensor
  | [], _ => none
  | p :: d, k => if p.1 = k then some p.2 else dictGet d k

/-- Python `d[k] = v`: an existing key keeps its position and gets the new
value, a new key is appended at the end. -/
def dictSet : FDict → String → Tensor → FDict
  | [], k, v => [(k, v)]
  | p :: d, k, v => if p.1 = k then (k, v) :: d else p :: dictSet d k v

/-- `Preprocessor._apply` from the source: for each key in `keys`, rebind the
key to `fn` of its current value.  A missing key raises `KeyError` (`none`). -/
def _apply (c : FDict) : List String → (Tensor → Tensor) → Option FDict
  | [], _ => some c
  | k :: ks, fn =>
    match dictGet c k with
    | none => none
    | some v => _apply (dictSet c k (fn v)) ks fn

/-- The configuration of `DefaultPreprocessor.__init__`. -/
structure DefaultPreprocessor where
  time_steps : Nat := 1000
  scale_f0_to_hz : Bool := false
deriving DecidableEq, Repr

/-- `DefaultPreprocessor._default_processing` from the source, over the dict
value it receives.  `hz` is the abstract scalar midi-to-hertz conversion. -/
def _default_processing (hz : ℚ → ℚ) (p : DefaultPreprocessor) (c0 : FDict) :
    Option FDict := do
  let c1 ← _apply c0 ["audio"] tf_float32
  let c2 ← _apply c1 ["loudness", "f0"] add_channel_dim
  let c3 ← _apply c2 ["loudness", "f0"] (fun x => resample x p.time_steps)
  let f0 ← dictGet c3 "f0"
  if p.scale_f0_to_hz then
    pure (dictSet c3 "f0_hz" (midi_to_hz hz (scalarMul 127 f0)))
  else
    pure (dictSet c3 "f0_hz" f0)

/-- `DefaultPreprocessor.get_outputs` from the source: shallow-copy the
features dict and run `_default_processing` on the copy.  The copy is the
same association list value; the mutation aspect is modelled separately by
`get_outputs_mut`.  The `training` argument is part of the signature. -/
def get_outputs (hz : ℚ → ℚ) (p : DefaultPreprocessor) (features : FDict)
    (training : Bool) : Option FDict :=
  _default_processing hz p features

/-- `Preprocessor.__call__` from the source: forwards to `get_outputs`. -/
def call (hz : ℚ → ℚ) (p : DefaultPreprocessor) (features : FDict)
    (training : Bool := true) : Option FDict :=
  get_outputs hz p features training

/-! ### Heap model of `get_outputs`

`copy.copy(features)` allocates a fresh dict and `_default_processing`
mutates only that fresh dict.  The heap is a list of dicts indexed by
position; `get_outputs_mut` reads the dict at reference `r`, allocates the
shallow copy at the fresh reference `store.length`, and writes every
mutation there. -/

/-- Heap-level `get_outputs`: returns the updated heap and the reference of
the result dict. -/
def get_outputs_mut (hz : ℚ → ℚ) (p : DefaultPreprocessor)
    (store : List FDict) (r : Nat) : Option (List FDict × Nat) := do
  let features ← store[r]?
  let rc := store.length
  let store1 := store ++ [features]
  let c ← _default_processing hz p features
  pure (store1.set rc c, rc)

/-! ### The chain as named stages

The spec describes the preprocessing chain as an ordered sequence of
dictionary transformations.  Each stage is defined here on its own, directly
over `dictGet`/`dictSet`, to be compared with `get_outputs`. -/

/-- Stage 1: cast the `audio` entry to float32. -/
def castAudioStage (c : FDict) : Option FDict :=
  (dictGet c "audio").map (fun a => dictSet c "audio" (tf_float32 a))

/-- Stage 2: add a trailing channel dimension to `loudness` and `f0`. -/
def channelStage (c : FDict) : Option FDict := do
  let l ← dictGet c "loudness"
  let c := dictSet c "loudness" (add_channel_dim l)
  let f ← dictGet c "f0"
  pure (dictSet c "f0" (add_channel_dim f))

/-- Stage 3: resample `loudness` and `f0` to `n` time steps. -/
def resampleStage (n : Nat) (c : FDict) : Option FDict := do
  let l ← dictGet c "loudness"
  let c := dictSet c "loudness" (resample l n)
  let f ← dictGet c "f0"
  pure (dictSet c "f0" (resample f n))

/-- Stage 4: derive `f0_hz` from the (already resampled) `f0` entry. -/
def f0hzStage (hz : ℚ → ℚ) (scale : Bool) (c : FDict) : Option FDict := do
  let f0 ← dictGet c "f0"
  pure (dictSet c "f0_hz"
    (if scale then midi_to_hz hz (scalarMul 127 f0) else f0))

/-- The dict produced by `_default_processing` when the three expected keys
are present, written as an explicit chain of updates. -/
def processedDict (hz : ℚ → ℚ) (p : DefaultPreprocessor) (c : FDict)
    (a l f : Tensor) : FDict :=
  dictSet
    (dictSet
      (dictSet
        (dictSet (dictSet (dictSet c "audio" (tf_float32 a))
            "loudness" (add_channel_dim l))
          "f0" (add_channel_dim f))
        "loudness" (resample (add_channel_dim l) p.time_steps))
      "f0" (resample (add_channel_dim f) p.time_steps))
    "f0_hz"
    (if p.scale_f0_to_hz then
        midi_to_hz hz (scalarMul 127 (resample (add_channel_dim f) p.time_steps))
      else resample (add_channel_dim f) p.time_steps)

/-! ### Concrete example inputs -/

/-- A rank-2 example audio tensor. -/
def exAudio : Tensor := ⟨[2, 4], DType.float64, [1, 2, 3, 4, 5, 6, 7, 8]⟩

/-- A rank-2 `(batch, time)` example time-series tensor. -/
def exTS : Tensor := ⟨[1, 2], DType.float32, [3, 9]⟩

/-- A rank-1 example tensor. -/
def cexT1 : Tensor := ⟨[3], DType.float32, [5, 6, 7]⟩

/-- An example feature mapping with one extra, untouched entry. -/
def exFm : FDict :=
  [("audio", exAudio), ("loudness", exTS), ("f0", exTS), ("extra", cexT1)]

/-- A feature mapping whose time-series entries have rank 1. -/
def cexFm : FDict := [("audio", cexT1), ("loudness", cexT1), ("f0", cexT1)]

/-! ### Dictionary lemmas -/

@[simp]
theorem keys_nil : keys ([] : FDict) = [] := rfl

@[simp]
theorem keys_cons (p : String × Tensor) (d : FDict) :
    keys (p :: d) = p.1 :: keys d := rfl

@[simp]
theorem dictGet_nil (k : String) : dictGet [] k = none := rfl

theorem dictGet_cons (p : String × Tensor) (d : FDict) (k : String) :
    dictGet (p :: d) k = if p.1 = k then some p.2 else dictGet d k := rfl

theorem dictSet_cons (p : String × Tensor) (d : FDict) (k : String)
    (v : Tensor) :
    dictSet (p :: d) k v = if p.1 = k then (k, v) :: d else p :: dictSet d k v :=
  rfl

theorem dictGet_dictSet_self (d : FDict) (k : String) (v : Tensor) :
    dictGet (dictSet d k v) k = some v := by
  induction d with
  | nil => simp [dictGet, dictSet]
  | cons p d ih =>
    by_cases h : p.1 = k <;> simp [dictGet_cons, dictSet_cons, h, ih]

theorem dictGet_dictSet_ne (d : FDict) (k k' : String) (v : Tensor)
    (h : k' ≠ k) : dictGet (dictSet d k v) k' = dictGet d k' := by
  have hk : ¬ k = k' := fun hh => h hh.symm
  induction d with
  | nil => simp [dictGet, dictSet, hk]
  | cons p d ih =>
    by_cases hp : p.1 = k
    · subst hp
      simp [dictGet_cons, dictSet_cons, hk]
    · simp only [dictSet_cons, if_neg hp, dictGet_cons, ih]

theorem keys_dictSet_mem (d : FDict) (k : String) (v : Tensor)
    (h : k ∈ keys d) : keys (dictSet d k v) = keys d := by
  induction d with
  | nil => simp at h
  | cons p d ih =>
    by_cases hp : p.1 = k
    · simp [dictSet_cons, hp]
    · have hd : k ∈ keys d := by
        rcases (by simpa using h : k = p.1 ∨ k ∈ keys d) with h1 | h1
        · exact absurd h1.symm hp
        · exact h1
      simp [dictSet_cons, hp, ih hd]

theorem keys_dictSet_not_mem (d : FDict) (k : String) (v : Tensor)
    (h : k ∉ keys d) : keys (dictSet d k v) = keys d ++ [k] := by
  induction d with
  | nil => simp [dictSet]
  | cons p d ih =>
    have hp : ¬ p.1 = k := by
      intro hh
      exact h (by simp [hh])
    have hd : k ∉ keys d := by
      intro hh
      exact h (by simp [hh])
    simp [dictSet_cons, hp, ih hd]

theorem dictGet_isSome_of_mem (d : FDict) (k : String) (h : k ∈ keys d) :
    ∃ v, dictGet d k = some v := by
  induction d with
  | nil => simp at h
  | cons p d ih =>
    by_cases hp : p.1 = k
    · exact ⟨p.2, by simp [dictGet_cons, hp]⟩
    · have hd : k ∈ keys d := by
        rcases (by simpa using h : k = p.1 ∨ k ∈ keys d) with h1 | h1
        · exact absurd h1.symm hp
        · exact h1
      rcases ih hd with ⟨v, hv⟩
      exact ⟨v, by simp [dictGet_cons, hp, hv]⟩

theorem mem_keys_of_dictGet (d : FDict) (k : String) (v : Tensor)
    (h : dictGet d k = some v) : k ∈ keys d := by
  induction d with
  | nil => simp at h
  | cons p d ih =>
    by_cases hp : p.1 = k
    · simp [hp]
    · rw [dictGet_cons, if_neg hp] at h
      simp [ih h]

/-! ### `_apply` lemmas -/

theorem _apply_one (c : FDict) (k : String) (fn : Tensor → Tensor)
    (v : Tensor) (h : dictGet c k = some v) :
    _apply c [k] fn = some (dictSet c k (fn v)) := by
  simp [_apply, h]

theorem _apply_two (c : FDict) (k1 k2 : String) (fn : Tensor → Tensor)
    (v1 v2 : Tensor) (hne : k2 ≠ k1)
    (h1 : dictGet c k1 = some v1) (h2 : dictGet c k2 = some v2) :
    _apply c [k1, k2] fn =
      some (dictSet (dictSet c k1 (fn v1)) k2 (fn v2)) := by
  have h2' : dictGet (dictSet c k1 (fn v1)) k2 = some v2 := by
    rw [dictGet_dictSet_ne c k1 k2 (fn v1) hne]
    exact h2
  simp [_apply, h1, h2']

/-! ### Closed form of the default processing chain -/

theorem default_processing_eq (hz : ℚ → ℚ) (p : DefaultPreprocessor)
    (c : FDict) (a l f : Tensor)
    (ha : dictGet c "audio" = some a)
    (hl : dictGet c "loudness" = some l)
    (hf : dictGet c "f0" = some f) :
    _default_processing hz p c = some (processedDict hz p c a l f) := by
  have h1 : _apply c ["audio"] tf_float32 =
      some (dictSet c "audio" (tf_float32 a)) :=
    _apply_one c "audio" tf_float32 a ha
  set c1 := dictSet c "audio" (tf_float32 a) with hc1
  have hl1 : dictGet c1 "loudness" = some l := by
    rw [hc1, dictGet_dictSet_ne c "audio" "loudness" _ (by decide)]
    exact hl
  have hf1 : dictGet c1 "f0" = some f := by
    rw [hc1, dictGet_dictSet_ne c "audio" "f0" _ (by decide)]
    exact hf
  have h2 : _apply c1 ["loudness", "f0"] add_channel_dim =
      some (dictSet (dictSet c1 "loudness" (add_channel_dim l)) "f0"
        (add_channel_dim f)) :=
    _apply_two c1 "loudness" "f0" add_channel_dim l f (by decide) hl1 hf1
  set c2 := dictSet (dictSet c1 "loudness" (add_channel_dim l)) "f0"
    (add_channel_dim f) with hc2
  have hl2 : dictGet c2 "loudness" = some (add_channel_dim l) := by
    rw [hc2, dictGet_dictSet_ne _ "f0" "loudness" _ (by decide),
      dictGet_dictSet_self]
  have hf2 : dictGet c2 "f0" = some (add_channel_dim f) := by
    rw [hc2, dictGet_dictSet_self]
  have h3 : _apply c2 ["loudness", "f0"] (fun x => resample x p.time_steps) =
      some (dictSet (dictSet c2 "loudness"
        (resample (add_channel_dim l) p.time_steps)) "f0"
        (resample (add_channel_dim f) p.time_steps)) :=
    _apply_two c2 "loudness" "f0" (fun x => resample x p.time_steps)
      (add_channel_dim l) (add_channel_dim f) (by decide) hl2 hf2
  set c3 := dictSet (dictSet c2 "loudness"
    (resample (add_channel_dim l) p.time_steps)) "f0"
    (resample (add_channel_dim f) p.time_steps) with hc3
  have hf3 : dictGet c3 "f0" = some (resample (add_channel_dim f) p.time_steps) := by
    rw [hc3, dictGet_dictSet_self]
  cases hsc : p.scale_f0_to_hz <;>
    simp [_default_processing, h1, h2, h3, hf3, processedDict, hsc, hc1, hc2, hc3]

theorem keys_processedDict (hz : ℚ → ℚ) (p : DefaultPreprocessor)
    (c : FDict) (a l f : Tensor)
    (ha : "audio" ∈ keys c) (hl : "loudness" ∈ keys c) (hf : "f0" ∈ keys c) :
    keys (processedDict hz p c a l f) =
      if "f0_hz" ∈ keys c then keys c else keys c ++ ["f0_hz"] := by
  unfold processedDict
  have e1 : keys (dictSet c "audio" (tf_float32 a)) = keys c :=
    keys_dictSet_mem _ _ _ ha
  have m2 : "loudness" ∈ keys (dictSet c "audio" (tf_float32 a)) := by
    rw [e1]; exact hl
  have e2 : keys (dictSet (dictSet c "audio" (tf_float32 a)) "loudness"
      (add_channel_dim l)) = keys c := by
    rw [keys_dictSet_mem _ _ _ m2, e1]
  have m3 : "f0" ∈ keys (dictSet (dictSet c "audio" (tf_float32 a)) "loudness"
      (add_channel_dim l)) := by
    rw [e2]; exact hf
  have e3 : keys (dictSet (dictSet (dictSet c "audio" (tf_float32 a)) "loudness"
      (add_channel_dim l)) "f0" (add_channel_dim f)) = keys c := by
    rw [keys_dictSet_mem _ _ _ m3, e2]
  have m4 : "loudness" ∈ keys (dictSet (dictSet (dictSet c "audio"
      (tf_float32 a)) "loudness" (add_channel_dim l)) "f0"
      (add_channel_dim f)) := by
    rw [e3]; exact hl
  have e4 : keys (dictSet (dictSet (dictSet (dictSet c "audio" (tf_float32 a))
      "loudness" (add_channel_dim l)) "f0" (add_channel_dim f)) "loudness"
      (resample (add_channel_dim l) p.time_steps)) = keys c := by
    rw [keys_dictSet_mem _ _ _ m4, e3]
  have m5 : "f0" ∈ keys (dictSet (dictSet (dictSet (dictSet c "audio"
      (tf_float32 a)) "loudness" (add_channel_dim l)) "f0" (add_channel_dim f))
      "loudness" (resample (add_channel_dim l) p.time_steps)) := by
    rw [e4]; exact hf
  have e5 : keys (dictSet (dictSet (dictSet (dictSet (dictSet c "audio"
      (tf_float32 a)) "loudness" (add_channel_dim l)) "f0" (add_channel_dim f))
      "loudness" (resample (add_channel_dim l) p.time_steps)) "f0"
      (resample (add_channel_dim f) p.time_steps)) = keys c := by
    rw [keys_dictSet_mem _ _ _ m5, e4]
  by_cases hz0 : "f0_hz" ∈ keys c
  · have m6 : "f0_hz" ∈ keys (dictSet (dictSet (dictSet (dictSet (dictSet c
        "audio" (tf_float32 a)) "loudness" (add_channel_dim l)) "f0"
        (add_channel_dim f)) "loudness"
        (resample (add_channel_dim l) p.time_steps)) "f0"
        (resample (add_channel_dim f) p.time_steps)) := by
      rw [e5]; exact hz0
    rw [keys_dictSet_mem _ _ _ m6, e5, if_pos hz0]
  · have m6 : "f0_hz" ∉ keys (dictSet (dictSet (dictSet (dictSet (dictSet c
        "audio" (tf_float32 a)) "loudness" (add_channel_dim l)) "f0"
        (add_channel_dim f)) "loudness"
        (resample (add_channel_dim l) p.time_steps)) "f0"
        (resample (add_channel_dim f) p.time_steps)) := by
      rw [e5]; exact hz0
    rw [keys_dictSet_not_mem _ _ _ m6, e5, if_neg hz0]

theorem dictGet_processedDict_f0 (hz : ℚ → ℚ) (p : DefaultPreprocessor)
    (c : FDict) (a l f : Tensor) :
    dictGet (processedDict hz p c a l f) "f0" =
      some (resample (add_channel_dim f) p.time_steps) := by
  unfold processedDict
  rw [dictGet_dictSet_ne _ _ _ _ (by decide), dictGet_dictSet_self]

theorem dictGet_processedDict_loudness (hz : ℚ → ℚ) (p : DefaultPreprocessor)
    (c : FDict) (a l f : Tensor) :
    dictGet (processedDict hz p c a l f) "loudness" =
      some (resample (add_channel_dim l) p.time_steps) := by
  unfold processedDict
  rw [dictGet_dictSet_ne _ _ _ _ (by decide),
    dictGet_dictSet_ne _ _ _ _ (by decide), dictGet_dictSet_self]

theorem dictGet_processedDict_f0hz (hz : ℚ → ℚ) (p : DefaultPreprocessor)
    (c : FDict) (a l f : Tensor) :
    dictGet (processedDict hz p c a l f) "f0_hz" =
      some (if p.scale_f0_to_hz then
          midi_to_hz hz (scalarMul 127 (resample (add_channel_dim f) p.time_steps))
        else resample (add_channel_dim f) p.time_steps) := by
  unfold processedDict
  rw [dictGet_dictSet_self]

theorem dictGet_processedDict_audio (hz : ℚ → ℚ) (p : DefaultPreprocessor)
    (c : FDict) (a l f : Tensor) :
    dictGet (processedDict hz p c a l f) "audio" = some (tf_float32 a) := by
  unfold processedDict
  rw [dictGet_dictSet_ne _ _ _ _ (by decide),
    dictGet_dictSet_ne _ _ _ _ (by decide),
    dictGet_dictSet_ne _ _ _ _ (by decide),
    dictGet_dictSet_ne _ _ _ _ (by decide),
    dictGet_dictSet_ne _ _ _ _ (by decide), dictGet_dictSet_self]

theorem dictGet_processedDict_other (hz : ℚ → ℚ) (p : DefaultPreprocessor)
    (c : FDict) (a l f : Tensor) (k : String)
    (hka : k ≠ "audio") (hkl : k ≠ "loudness") (hkf : k ≠ "f0")
    (hkz : k ≠ "f0_hz") :
    dictGet (processedDict hz p c a l f) k = dictGet c k := by
  unfold processedDict
  rw [dictGet_dictSet_ne _ _ _ _ hkz, dictGet_dictSet_ne _ _ _ _ hkf,
    dictGet_dictSet_ne _ _ _ _ hkl, dictGet_dictSet_ne _ _ _ _ hkf,
    dictGet_dictSet_ne _ _ _ _ hkl, dictGet_dictSet_ne _ _ _ _ hka]

/-! ### Shape lemmas -/

theorem add_channel_dim_rank_ge (x : Tensor) (h : 2 ≤ x.shape.length) :
    2 ≤ (add_channel_dim x).shape.length := by
  unfold add_channel_dim
  split
  · simp
    omega
  · exact h

theorem resample_shape_time (x : Tensor) (n : Nat) (h : 2 ≤ x.shape.length) :
    (resample x n).shape[1]? = some n := by
  rcases x with ⟨shape, dt, data⟩
  cases shape with
  | nil => simp at h
  | cons d0 tl =>
    cases tl with
    | nil => simp at h
    | cons d1 rest => simp [resample, timeAxis]

theorem resample_rank (x : Tensor) (n : Nat) :
    (resample x n).shape.length = x.shape.length := by
  simp [resample]

theorem add_channel_dim_rank3 (x : Tensor)
    (h : x.shape.length = 2 ∨ x.shape.length = 3) :
    (add_channel_dim x).shape.length = 3 := by
  unfold add_channel_dim
  rcases h with h | h
  · simp [h]
  · have : ¬ x.shape.length = 2 := by omega
    simp [this, h]

/-! ### Claim theorems -/

/-- Claim C1: for every input feature mapping (holding the expected input
features `audio`, `loudness` and `f0`, and not already holding the derived
key `f0_hz`), the mapping returned by `DefaultPreprocessor.get_outputs`
contains every key of the input mapping plus exactly one added key,
`f0_hz`. -/
theorem get_outputs_keys (hz : ℚ → ℚ) (p : DefaultPreprocessor) (fm : FDict)
    (tr : Bool) (a l f : Tensor)
    (ha : dictGet fm "audio" = some a)
    (hl : dictGet fm "loudness" = some l)
    (hf : dictGet fm "f0" = some f)
    (hno : "f0_hz" ∉ keys fm) :
    ∃ out, get_outputs hz p fm tr = some out ∧
      keys out = keys fm ++ ["f0_hz"] := by
  refine ⟨processedDict hz p fm a l f,
    default_processing_eq hz p fm a l f ha hl hf, ?_⟩
  rw [keys_processedDict hz p fm a l f (mem_keys_of_dictGet _ _ _ ha)
    (mem_keys_of_dictGet _ _ _ hl) (mem_keys_of_dictGet _ _ _ hf), if_neg hno]

theorem get_outputs_keys_witness :
    ∃ out, get_outputs (fun q => q) ⟨1, false⟩ exFm true = some out ∧
      keys out = keys exFm ++ ["f0_hz"] :=
  get_outputs_keys (fun q => q) ⟨1, false⟩ exFm true exAudio exTS exTS
    rfl rfl rfl (by decide)

/-- Claim C2: for every input feature mapping containing `loudness` and `f0`
(of the `(batch, time, ...)` ranks at least 2 the chain is written for), the
output entries for these two keys are the result of resampling to
`time_steps` steps: their time dimension (axis 1) has length `time_steps`. -/
theorem get_outputs_time_steps (hz : ℚ → ℚ) (p : DefaultPreprocessor)
    (fm : FDict) (tr : Bool) (a l f : Tensor)
    (ha : dictGet fm "audio" = some a)
    (hl : dictGet fm "loudness" = some l)
    (hf : dictGet fm "f0" = some f)
    (hlr : 2 ≤ l.shape.length) (hfr : 2 ≤ f.shape.length) :
    ∃ out lt ft, get_outputs hz p fm tr = some out ∧
      dictGet out "loudness" = some lt ∧ dictGet out "f0" = some ft ∧
      lt = resample (add_channel_dim l) p.time_steps ∧
      ft = resample (add_channel_dim f) p.time_steps ∧
      lt.shape[1]? = some p.time_steps ∧ ft.shape[1]? = some p.time_steps := by
  refine ⟨processedDict hz p fm a l f,
    resample (add_channel_dim l) p.time_steps,
    resample (add_channel_dim f) p.time_steps,
    default_processing_eq hz p fm a l f ha hl hf,
    dictGet_processedDict_loudness hz p fm a l f,
    dictGet_processedDict_f0 hz p fm a l f, rfl, rfl, ?_, ?_⟩
  · exact resample_shape_time _ _ (add_channel_dim_rank_ge l hlr)
  · exact resample_shape_time _ _ (add_channel_dim_rank_ge f hfr)

theorem get_outputs_time_steps_witness :
    ∃ out lt ft, get_outputs (fun q => q) ⟨5, false⟩ exFm true = some out ∧
      dictGet out "loudness" = some lt ∧ dictGet out "f0" = some ft ∧
      lt = resample (add_channel_dim exTS) 5 ∧
      ft = resample (add_channel_dim exTS) 5 ∧
      lt.shape[1]? = some 5 ∧ ft.shape[1]? = some 5 :=
  get_outputs_time_steps (fun q => q) ⟨5, false⟩ exFm true exAudio exTS exTS
    rfl rfl rfl (by decide) (by decide)

/-- Claim C3: for every input feature mapping (holding the expected input
features), the output entry `f0_hz` is derived from the processed `f0`
entry: when `scale_f0_to_hz` is true it is `midi_to_hz (f0 * 127.0)`, and
when `scale_f0_to_hz` is false it is the processed `f0` entry unchanged. -/
theorem get_outputs_f0_hz (hz : ℚ → ℚ) (p : DefaultPreprocessor) (fm : FDict)
    (tr : Bool) (a l f : Tensor)
    (ha : dictGet fm "audio" = some a)
    (hl : dictGet fm "loudness" = some l)
    (hf : dictGet fm "f0" = some f) :
    ∃ out t, get_outputs hz p fm tr = some out ∧
      dictGet out "f0" = some t ∧
      dictGet out "f0_hz" =
        some (if p.scale_f0_to_hz then midi_to_hz hz (scalarMul 127 t)
          else t) :=
  ⟨processedDict hz p fm a l f, resample (add_channel_dim f) p.time_steps,
    default_processing_eq hz p fm a l f ha hl hf,
    dictGet_processedDict_f0 hz p fm a l f,
    dictGet_processedDict_f0hz hz p fm a l f⟩

theorem get_outputs_f0_hz_witness :
    ∃ out t, get_outputs (fun q => q + 1) ⟨2, true⟩ exFm true = some out ∧
      dictGet out "f0" = some t ∧
      dictGet out "f0_hz" =
        some (if (true : Bool) then
            midi_to_hz (fun q => q + 1) (scalarMul 127 t)
          else t) :=
  get_outputs_f0_hz (fun q => q + 1) ⟨2, true⟩ exFm true exAudio exTS exTS
    rfl rfl rfl

/-- Claim C4, counterexample: the claim promises rank 3 for the output
`loudness`/`f0` entries whatever the rank of the input entries, but
`add_channel_dim` only appends a dimension at rank 2: on a feature mapping
whose `f0` entry has rank 1, the output `f0` entry has rank 1, not 3. -/
theorem get_outputs_rank3_cex :
    ∃ out t, get_outputs (fun q => q) ⟨1, false⟩ cexFm true = some out ∧
      dictGet out "f0" = some t ∧ t.shape.length ≠ 3 := by
  refine ⟨[("audio", ⟨[3], DType.float32, [5, 6, 7]⟩),
    ("loudness", ⟨[1], DType.float32, [5]⟩),
    ("f0", ⟨[1], DType.float32, [5]⟩),
    ("f0_hz", ⟨[1], DType.float32, [5]⟩)],
    ⟨[1], DType.float32, [5]⟩, ?_, ?_, ?_⟩ <;> decide

/-- Claim C4, amended: after `DefaultPreprocessor` runs, the `loudness` and
`f0` entries have a trailing channel dimension (rank 3) whenever the
corresponding input entries have rank 2 or rank 3 (the shapes the chain is
written for); other input ranks pass through with their rank unchanged by
`add_channel_dim`. -/
theorem get_outputs_rank3 (hz : ℚ → ℚ) (p : DefaultPreprocessor) (fm : FDict)
    (tr : Bool) (a l f : Tensor)
    (ha : dictGet fm "audio" = some a)
    (hl : dictGet fm "loudness" = some l)
    (hf : dictGet fm "f0" = some f)
    (hlr : l.shape.length = 2 ∨ l.shape.length = 3)
    (hfr : f.shape.length = 2 ∨ f.shape.length = 3) :
    ∃ out lt ft, get_outputs hz p fm tr = some out ∧
      dictGet out "loudness" = some lt ∧ dictGet out "f0" = some ft ∧
      lt.shape.length = 3 ∧ ft.shape.length = 3 := by
  refine ⟨processedDict hz p fm a l f,
    resample (add_channel_dim l) p.time_steps,
    resample (add_channel_dim f) p.time_steps,
    default_processing_eq hz p fm a l f ha hl hf,
    dictGet_processedDict_loudness hz p fm a l f,
    dictGet_processedDict_f0 hz p fm a l f, ?_, ?_⟩
  · rw [resample_rank]
    exact add_channel_dim_rank3 l hlr
  · rw [resample_rank]
    exact add_channel_dim_rank3 f hfr

theorem get_outputs_rank3_witness :
    ∃ out lt ft, get_outputs (fun q => q) ⟨1, false⟩ exFm true = some out ∧
      dictGet out "loudness" = some lt ∧ dictGet out "f0" = some ft ∧
      lt.shape.length = 3 ∧ ft.shape.length = 3 :=
  get_outputs_rank3 (fun q => q) ⟨1, false⟩ exFm true exAudio exTS exTS
    rfl rfl rfl (by decide) (by decide)

/-- Claim C5: `add_channel_dim` appends a trailing dimension of size 1
exactly when the tensor has rank 2, and returns the tensor unchanged for
every other rank. -/
theorem add_channel_dim_spec (x : Tensor) :
    (x.shape.length = 2 → add_channel_dim x = { x with shape := x.shape ++ [1] }) ∧
    (x.shape.length ≠ 2 → add_channel_dim x = x) := by
  constructor <;> intro h <;> simp [add_channel_dim, h]

theorem add_channel_dim_spec_witness :
    add_channel_dim exTS = { exTS with shape := exTS.shape ++ [1] } ∧
    add_channel_dim cexT1 = cexT1 :=
  ⟨(add_channel_dim_spec exTS).1 rfl, (add_channel_dim_spec cexT1).2 (by decide)⟩

/-- Claim C6: `get_outputs` first copies the input mapping and mutates only
the copy: in the heap model, whenever `get_outputs_mut` succeeds, the dict
the caller's reference `r` points to is unchanged, and the result lives at a
different (fresh) reference. -/
theorem get_outputs_mut_frame (hz : ℚ → ℚ) (p : DefaultPreprocessor)
    (store store2 : List FDict) (r rc : Nat)
    (h : get_outputs_mut hz p store r = some (store2, rc)) :
    store2[r]? = store[r]? ∧ rc ≠ r := by
  simp only [get_outputs_mut, bind, Option.bind_eq_some, pure,
    Option.some.injEq, Prod.mk.injEq] at h
  obtain ⟨features, hfe, c, hc, hs2, hrc⟩ := h
  have hr : r < store.length := (List.getElem?_eq_some.mp hfe).1
  have hne : rc ≠ r := by omega
  refine ⟨?_, hne⟩
  rw [← hs2, List.getElem?_set_ne (by omega), List.getElem?_append_left hr]

theorem get_outputs_mut_frame_witness :
    ([exFm,
      [("audio", ⟨[2, 4], DType.float32, [1, 2, 3, 4, 5, 6, 7, 8]⟩),
       ("loudness", ⟨[1, 1, 1], DType.float32, [3]⟩),
       ("f0", ⟨[1, 1, 1], DType.float32, [3]⟩),
       ("extra", ⟨[3], DType.float32, [5, 6, 7]⟩),
       ("f0_hz", ⟨[1, 1, 1], DType.float32, [3]⟩)]] : List FDict)[0]? =
      ([exFm] : List FDict)[0]? ∧ 1 ≠ 0 :=
  get_outputs_mut_frame (fun q => q) ⟨1, false⟩ [exFm] _ 0 1 (by decide)

/-! ### Stage lemmas for the chain decomposition -/

theorem castAudioStage_eq_apply (c : FDict) :
    castAudioStage c = _apply c ["audio"] tf_float32 := by
  cases h : dictGet c "audio" <;> simp [castAudioStage, _apply, h]

theorem channelStage_eq_apply (c : FDict) :
    channelStage c = _apply c ["loudness", "f0"] add_channel_dim := by
  cases h1 : dictGet c "loudness" with
  | none => simp [channelStage, _apply, h1]
  | some l =>
    cases h2 : dictGet (dictSet c "loudness" (add_channel_dim l)) "f0" <;>
      simp [channelStage, _apply, h1, h2]

theorem resampleStage_eq_apply (n : Nat) (c : FDict) :
    resampleStage n c = _apply c ["loudness", "f0"] (fun x => resample x n) := by
  cases h1 : dictGet c "loudness" with
  | none => simp [resampleStage, _apply, h1]
  | some l =>
    cases h2 : dictGet (dictSet c "loudness" (resample l n)) "f0" <;>
      simp [resampleStage, _apply, h1, h2]

theorem f0hzStage_eq (hz : ℚ → ℚ) (s : Bool) (c : FDict) :
    f0hzStage hz s c = (dictGet c "f0").bind fun f0 =>
      if s then some (dictSet c "f0_hz" (midi_to_hz hz (scalarMul 127 f0)))
      else some (dictSet c "f0_hz" f0) := by
  cases h : dictGet c "f0" <;> cases s <;> simp [f0hzStage, h]

/-- Claim C7: the preprocessing chain is the fixed-order composition of its
four dictionary transformations: cast `audio`, add the trailing dimension to
`loudness`/`f0`, resample `loudness`/`f0` to `time_steps`, then derive
`f0_hz` from the already-resampled `f0`. -/
theorem get_outputs_stages (hz : ℚ → ℚ) (p : DefaultPreprocessor)
    (fm : FDict) (tr : Bool) :
    get_outputs hz p fm tr =
      (((castAudioStage fm).bind channelStage).bind
        (resampleStage p.time_steps)).bind (f0hzStage hz p.scale_f0_to_hz) := by
  rw [castAudioStage_eq_apply]
  unfold get_outputs _default_processing
  simp only [bind, pure]
  cases h1 : _apply fm ["audio"] tf_float32 with
  | none => rfl
  | some c1 =>
    simp only [Option.some_bind, channelStage_eq_apply]
    cases h2 : _apply c1 ["loudness", "f0"] add_channel_dim with
    | none => rfl
    | some c2 =>
      simp only [Option.some_bind, resampleStage_eq_apply]
      cases h3 : _apply c2 ["loudness", "f0"] (fun x => resample x p.time_steps) with
      | none => rfl
      | some c3 => simp only [Option.some_bind, f0hzStage_eq]

/-- Claim C8: besides the four keys `audio`, `loudness`, `f0` and `f0_hz`,
every other entry of the input mapping appears in the output mapping bound
to the very same value, unchanged. -/
theorem get_outputs_frame_other (hz : ℚ → ℚ) (p : DefaultPreprocessor)
    (fm : FDict) (tr : Bool) (a l f : Tensor) (k : String)
    (ha : dictGet fm "audio" = some a)
    (hl : dictGet fm "loudness" = some l)
    (hf : dictGet fm "f0" = some f)
    (hk : k ∉ (["audio", "loudness", "f0", "f0_hz"] : List String)) :
    ∃ out, get_outputs hz p fm tr = some out ∧
      dictGet out k = dictGet fm k := by
  have hk4 : k ≠ "audio" ∧ k ≠ "loudness" ∧ k ≠ "f0" ∧ k ≠ "f0_hz" := by
    simpa using hk
  exact ⟨processedDict hz p fm a l f,
    default_processing_eq hz p fm a l f ha hl hf,
    dictGet_processedDict_other hz p fm a l f k hk4.1 hk4.2.1 hk4.2.2.1
      hk4.2.2.2⟩

theorem get_outputs_frame_other_witness :
    ∃ out, get_outputs (fun q => q) ⟨1, false⟩ exFm true = some out ∧
      dictGet out "extra" = dictGet exFm "extra" :=
  get_outputs_frame_other (fun q => q) ⟨1, false⟩ exFm true exAudio exTS exTS
    "extra" rfl rfl rfl (by decide)

/-- Claim C9: the `audio` entry is always converted to float32 by the chain,
and no other transformation is applied to it: the output `audio` entry is
exactly `tf_float32` of the input entry, which only changes the dtype tag. -/
theorem get_outputs_audio (hz : ℚ → ℚ) (p : DefaultPreprocessor)
    (fm : FDict) (tr : Bool) (a l f : Tensor)
    (ha : dictGet fm "audio" = some a)
    (hl : dictGet fm "loudness" = some l)
    (hf : dictGet fm "f0" = some f) :
    ∃ out, get_outputs hz p fm tr = some out ∧
      dictGet out "audio" = some (tf_float32 a) ∧
      (tf_float32 a).dtype = DType.float32 ∧
      (tf_float32 a).shape = a.shape ∧ (tf_float32 a).data = a.data :=
  ⟨processedDict hz p fm a l f,
    default_processing_eq hz p fm a l f ha hl hf,
    dictGet_processedDict_audio hz p fm a l f, rfl, rfl, rfl⟩

theorem get_outputs_audio_witness :
    ∃ out, get_outputs (fun q => q) ⟨1, false⟩ exFm true = some out ∧
      dictGet out "audio" = some (tf_float32 exAudio) ∧
      (tf_float32 exAudio).dtype = DType.float32 ∧
      (tf_float32 exAudio).shape = exAudio.shape ∧
      (tf_float32 exAudio).data = exAudio.data :=
  get_outputs_audio (fun q => q) ⟨1, false⟩ exFm true exAudio exTS exTS
    rfl rfl rfl

/-- Claim C10: the output of `DefaultPreprocessor` does not depend on the
`training` flag: `get_outputs` returns the same mapping for any two values
of the flag. -/
theorem get_outputs_training_independent (hz : ℚ → ℚ)
    (p : DefaultPreprocessor) (fm : FDict) (t1 t2 : Bool) :
    get_outputs hz p fm t1 = get_outputs hz p fm t2 := rfl

end DDSP
